import Mathlib

/-! pdfium-webserver: the HTTP handlers of `main.go`

A shallow embedding of the three route handlers registered in `main`
(`GET /readyz`, `GET /livez`, `POST /render`) and of the pool configuration
set up by `initPdfium`.

The handlers talk to three collaborators whose code is not part of `main.go`:
gin (request binding, response writing, the `Recovery` middleware), the
multipart file of the upload, and the go-pdfium pool with its instances.
Their outcomes are inputs of the embedding: a handler is a function from
those outcomes to the response it writes and the trace of calls it issues.
-/

namespace PdfiumWebserver

/-! ## Go `int` -/

/-- Two-complement wrap-around of a 64-bit Go `int`. -/
def wrapInt (x : Int) : Int := (x + 2 ^ 63) % 2 ^ 64 - 2 ^ 63

/-- The values a Go `int` can hold on a 64-bit platform. -/
def isGoInt (x : Int) : Prop := -(2 ^ 63) ≤ x ∧ x < 2 ^ 63

instance (x : Int) : Decidable (isGoInt x) :=
  inferInstanceAs (Decidable (-(2 ^ 63) ≤ x ∧ x < 2 ^ 63))

/-! ## Request binding (`BindFile`, `c.ShouldBind`) -/

/-- Raw bytes, one `Nat` below 256 per byte. -/
abbrev Bytes := List Nat

/-- The `*multipart.FileHeader` of the upload. `Open` is the outcome of
`bindFile.File.Open()`: the contents of the multipart file, or the error. -/
structure FileHeader where
  Filename : String
  Open : Except String Bytes

/-- The struct `BindFile` (main.go 53-57). `File` is a pointer, `none` is nil. -/
structure BindFile where
  DPI : Int
  Page : Int
  File : Option FileHeader

/-- What `c.ShouldBind` sees of a request: the outcome of the form mapping
phase, either a decoding error or the struct with every form field that was
present stored and every absent field left at its zero value. -/
structure Request where
  mapped : Except String BindFile

/-- The message of one failed `required` tag, as the validator prints it. -/
def fieldError (field : String) : String :=
  "Key: \x27BindFile." ++ field ++ "\x27 Error:Field validation for \x27" ++ field ++
    "\x27 failed on the \x27required\x27 tag"

/-- The `binding:"required"` tags of `BindFile`, in field order. The validator
rejects a field that holds the zero value of its type: `0` for the two `int`
fields, nil for the pointer. -/
def requiredErrors (b : BindFile) : List String :=
  (if b.DPI = 0 then [fieldError "DPI"] else []) ++
  (if b.Page = 0 then [fieldError "Page"] else []) ++
  (if b.File.isNone then [fieldError "File"] else [])

/-- The call `c.ShouldBind(&bindFile)`: form mapping, then validation of the
`required` tags; the validation errors are joined with newlines. -/
def ShouldBind (req : Request) : Except String BindFile :=
  match req.mapped with
  | .error e => .error e
  | .ok b =>
    match requiredErrors b with
    | [] => .ok b
    | errs => .error ("\n".intercalate errs)

/-! ## The pool and its instances, as seen by the handlers -/

/-- The document reference `doc.Document` returned by `OpenDocument`. -/
structure DocRef where
  id : Nat
  deriving DecidableEq, Repr

/-- A leased `pdfium.Pdfium` instance: the outcomes of the two worker
operations the handler issues. `RenderToFile doc index dpi` is the render of
one page by index in DPI, JPG output to bytes. -/
structure Instance where
  OpenDocument : Bytes → Except String DocRef
  RenderToFile : DocRef → Int → Int → Except String Bytes

/-- An initialised `pdfium.Pool`: the outcome of `GetInstance(30s)`. -/
structure Pool where
  GetInstance : Except String Instance

/-- The process-wide state read by the handlers: the package variable `pool`
(main.go 23), `none` while it is still the nil interface. -/
structure Env where
  pool : Option Pool

/-! ## Responses and call traces -/

/-- What a handler writes to the client. `abort` is the answer of the
`gin.Recovery()` middleware (main.go 71) after a recovered runtime fault:
`AbortWithStatus(500)`, no body. -/
inductive Response where
  | text (code : Nat) (body : String)
  | data (code : Nat) (contentType : String) (body : Bytes)
  | abort (code : Nat)
  deriving DecidableEq, Repr

/-- The calls a `/render` request issues, in order. `instanceClose` and
`instanceKill` are the two ways the instance interface offers to end a lease:
`Close` gives the worker back to the pool, `Kill` destroys the worker. -/
inductive Event where
  | fileOpen
  | getInstance
  | nilDereference
  | openDocument
  | renderToFile (index dpi : Int)
  | instanceClose
  | instanceKill
  | srcClose
  deriving DecidableEq, Repr

/-- Outcome of one handled request. -/
structure Result where
  trace : List Event
  response : Response
  deriving DecidableEq, Repr

/-- HTTP status of a response. -/
def Response.status : Response → Nat
  | .text c _ => c
  | .data c _ _ => c
  | .abort c => c

/-! ## `POST /render` (main.go 106-164) -/

/-- The handler of `POST /render`. Deferred calls run when the handler
returns, last deferred first, also when it unwinds from a runtime fault. -/
def renderHandler (env : Env) (req : Request) : Result :=
  match ShouldBind req with
  | .error err => ⟨[], .text 400 ("err: " ++ err)⟩
  | .ok bindFile =>
    match bindFile.File with
    | none => ⟨[.nilDereference], .abort 500⟩
    | some file =>
      match file.Open with
      | .error err => ⟨[.fileOpen], .text 400 ("upload file err: " ++ err)⟩
      | .ok src =>
        -- defer src.Close()
        match env.pool with
        | none =>
          -- method call on the nil interface value
          ⟨[.fileOpen, .getInstance, .nilDereference, .srcClose], .abort 500⟩
        | some pool =>
          match pool.GetInstance with
          | .error err =>
            ⟨[.fileOpen, .getInstance, .srcClose], .text 400 ("pdfium err: " ++ err)⟩
          | .ok pdfiumInstance =>
            -- defer pdfiumInstance.Close()
            match pdfiumInstance.OpenDocument src with
            | .error err =>
              ⟨[.fileOpen, .getInstance, .openDocument, .instanceClose, .srcClose],
                .text 400 ("pdfium err: " ++ err)⟩
            | .ok doc =>
              let page := if bindFile.Page ≤ 0 then 1 else bindFile.Page
              let index := wrapInt (page - 1)
              match pdfiumInstance.RenderToFile doc index bindFile.DPI with
              | .error err =>
                ⟨[.fileOpen, .getInstance, .openDocument, .renderToFile index bindFile.DPI,
                  .instanceClose, .srcClose], .text 400 ("pdfium err: " ++ err)⟩
              | .ok imageBytes =>
                ⟨[.fileOpen, .getInstance, .openDocument, .renderToFile index bindFile.DPI,
                  .instanceClose, .srcClose], .data 200 "image/jpeg" imageBytes⟩

/-! ## `GET /readyz` and `GET /livez` (main.go 83-104) -/

/-- A value of a `gin.H` map as the probes use them. -/
inductive JSONValue where
  | bool (b : Bool)
  | str (s : String)
  deriving DecidableEq, Repr

/-- The answer of `c.JSON(status, result)`. -/
structure JSONResponse where
  status : Nat
  body : List (String × JSONValue)
  deriving DecidableEq, Repr

/-- The handler of `GET /readyz`. -/
def readyzHandler (env : Env) : JSONResponse :=
  let status := 200
  let result := [("pdfium_ready", JSONValue.bool true)]
  match env.pool with
  | none => ⟨500, [("pdfium_ready", JSONValue.bool false)]⟩
  | some _ => ⟨status, result⟩

/-- The handler of `GET /livez`. -/
def livezHandler : JSONResponse :=
  ⟨200, [("status", JSONValue.str "ok")]⟩

/-! ## Conditions on a request, read off the handler's control flow -/

/-- Status classes of HTTP. -/
def isClientError (code : Nat) : Prop := 400 ≤ code ∧ code < 500

/-- Status class of server errors. -/
def isServerError (code : Nat) : Prop := 500 ≤ code ∧ code < 600

/-- Request binding fails with message `e` (main.go 109). -/
def BindFails (req : Request) (e : String) : Prop :=
  ShouldBind req = .error e

/-- Binding succeeds and the upload opens with contents `src` (main.go 109-118). -/
def UploadOpens (req : Request) (b : BindFile) (src : Bytes) : Prop :=
  ∃ f, ShouldBind req = .ok b ∧ b.File = some f ∧ f.Open = .ok src

/-- Binding succeeds and opening the upload fails with `e` (main.go 114-115). -/
def UploadFails (req : Request) (e : String) : Prop :=
  ∃ b f, ShouldBind req = .ok b ∧ b.File = some f ∧ f.Open = .error e

/-- Binding and upload open succeed, the pool is there, and `GetInstance`
fails with `e` (main.go 121-122). -/
def AcquisitionFails (env : Env) (req : Request) (e : String) : Prop :=
  ∃ b src p, UploadOpens req b src ∧ env.pool = some p ∧ p.GetInstance = .error e

/-- Binding and upload open succeed and `GetInstance` hands out `inst`
(main.go 121-126). -/
def Acquires (env : Env) (req : Request) (b : BindFile) (src : Bytes) (inst : Instance) : Prop :=
  ∃ p, UploadOpens req b src ∧ env.pool = some p ∧ p.GetInstance = .ok inst

/-- Some instance is acquired for the request. -/
def Acquired (env : Env) (req : Request) : Prop :=
  ∃ b src inst, Acquires env req b src inst

/-- An instance is acquired and the worker fails to open the document with
`e` (main.go 128-131). -/
def OpenDocumentFails (env : Env) (req : Request) (e : String) : Prop :=
  ∃ b src inst, Acquires env req b src inst ∧ inst.OpenDocument src = .error e

/-- An instance is acquired, the document opens, and the render call fails
with `e` (main.go 141-158). -/
def RenderFails (env : Env) (req : Request) (e : String) : Prop :=
  ∃ b src inst doc, Acquires env req b src inst ∧ inst.OpenDocument src = .ok doc ∧
    inst.RenderToFile doc (wrapInt ((if b.Page ≤ 0 then 1 else b.Page) - 1)) b.DPI = .error e

/-- An instance is acquired and both worker operations succeed. -/
def RenderSucceeds (env : Env) (req : Request) (image : Bytes) : Prop :=
  ∃ b src inst doc, Acquires env req b src inst ∧ inst.OpenDocument src = .ok doc ∧
    inst.RenderToFile doc (wrapInt ((if b.Page ≤ 0 then 1 else b.Page) - 1)) b.DPI = .ok image

/-! ## Sample inputs -/

/-- The first bytes of a PDF file. -/
def pdfBytes : Bytes := [37, 80, 68, 70, 45, 49, 46, 52]

/-- The first bytes of a JPEG file. -/
def jpegBytes : Bytes := [255, 216, 255, 224]

/-- An upload that opens. -/
def validFile : FileHeader := ⟨"doc.pdf", .ok pdfBytes⟩

/-- An instance whose worker opens every document and renders every page. -/
def healthyInstance : Instance := ⟨fun _ => .ok ⟨1⟩, fun _ _ _ => .ok jpegBytes⟩

/-- An instance whose worker rejects the document. -/
def rejectingInstance : Instance :=
  ⟨fun _ => .error "failed to open document", fun _ _ _ => .ok jpegBytes⟩

/-- An instance whose worker opens the document and fails the render. -/
def failingRenderInstance : Instance :=
  ⟨fun _ => .ok ⟨1⟩, fun _ _ _ => .error "render failed"⟩

/-- An initialised pool with a free worker. -/
def readyEnv : Env := ⟨some ⟨.ok healthyInstance⟩⟩

/-- An initialised pool whose worker rejects the document. -/
def corruptDocEnv : Env := ⟨some ⟨.ok rejectingInstance⟩⟩

/-- An initialised pool whose worker fails the render. -/
def failingRenderEnv : Env := ⟨some ⟨.ok failingRenderInstance⟩⟩

/-- An initialised pool with no worker free within the timeout. -/
def exhaustedEnv : Env := ⟨some ⟨.error "Timeout waiting for idle object"⟩⟩

/-- The process before `initPdfium` has assigned `pool`. -/
def startingEnv : Env := ⟨none⟩

/-- A request for `page` at `dpi` carrying a valid document. -/
def requestFor (page dpi : Int) : Request := ⟨.ok ⟨dpi, page, some validFile⟩⟩

/-! ## The worker pool behind `GetInstance` and `Close`

`initPdfium` (main.go 44-49) configures the pool; the pool manager itself is
supplied by the go-pdfium library and is modelled here from the design
document, as a sequential state machine whose steps are the atomic pool
operations (the design serialises them under one pool-wide discipline). -/

/-- The sizing part of `multi_threaded.Config`. -/
structure Config where
  MinIdle : Nat
  MaxIdle : Nat
  MaxTotal : Nat
  deriving DecidableEq, Repr

/-- The configuration passed to `multi_threaded.Init` (main.go 44-49). -/
def startupConfig : Config := ⟨4, 4, 4⟩

/-- Modelled from the spec: the Pool Manager state of section 4.2, whose
implementation is not in `main.go`. Workers are named by the number they got
at spawn time; `idle` lists the handles in state Idle, oldest first; `leased`
lists the live leases, each by the worker it holds; dead handles are removed;
`nextId` is the spawn counter. -/
structure PoolState where
  idle : List Nat
  leased : List Nat
  nextId : Nat
  deriving DecidableEq, Repr

/-- Modelled from the spec: the pool right after `Initialize`, before any
worker has been spawned (spawning is asynchronous). -/
def emptyPool : PoolState := ⟨[], [], 0⟩

/-- Modelled from the spec: `Acquire` of section 4.2. An idle handle is
leased; with none idle and the total below `MaxTotal` a new worker is spawned
and leased; at `MaxTotal` with none idle the caller gets no lease (Timeout or
Exhausted) and the state does not change. -/
def PoolState.Acquire (cfg : Config) (s : PoolState) : PoolState × Option Nat :=
  match s.idle with
  | w :: rest => ({ s with idle := rest, leased := w :: s.leased }, some w)
  | [] =>
    if s.leased.length < cfg.MaxTotal then
      ({ s with leased := s.nextId :: s.leased, nextId := s.nextId + 1 }, some s.nextId)
    else (s, none)

/-- Modelled from the spec: `Release(lease, healthy)` of section 4.2. A
healthy release returns the handle to Idle; an unhealthy one destroys the
worker and removes the handle. Releasing what is not a live lease does
nothing. -/
def PoolState.Release (s : PoolState) (w : Nat) (healthy : Bool) : PoolState :=
  if w ∈ s.leased then
    if healthy then { s with leased := s.leased.erase w, idle := s.idle ++ [w] }
    else { s with leased := s.leased.erase w }
  else s

/-- Modelled from the spec: one cycle of the maintenance loop of section
4.2. It spawns idle workers up to `MinIdle`, never past `MaxTotal` in total,
then terminates the idle workers beyond `MaxIdle`, oldest first. -/
def PoolState.Maintain (cfg : Config) (s : PoolState) : PoolState :=
  let want := cfg.MinIdle - s.idle.length
  let room := cfg.MaxTotal - (s.idle.length + s.leased.length)
  let k := min want room
  let idle := s.idle ++ (List.range k).map (fun i => s.nextId + i)
  { s with idle := idle.drop (idle.length - cfg.MaxIdle), nextId := s.nextId + k }

/-- Modelled from the spec: the atomic operations on the pool. `acquire` is
what `pool.GetInstance` asks for, `release w true` what `Close` of the
instance holding `w` does, `release w false` the destroying release, `expire`
the deadline sweep reclaiming the lease on `w`, `maintain` a maintenance
cycle. -/
inductive PoolOp where
  | acquire
  | release (w : Nat) (healthy : Bool)
  | expire (w : Nat)
  | maintain
  deriving DecidableEq, Repr

/-- One atomic pool operation. -/
def PoolState.step (cfg : Config) (s : PoolState) : PoolOp → PoolState
  | .acquire => (s.Acquire cfg).1
  | .release w healthy => s.Release w healthy
  | .expire w => s.Release w false
  | .maintain => s.Maintain cfg

/-- The pool after a sequence of operations. -/
def PoolState.run (cfg : Config) (s : PoolState) (ops : List PoolOp) : PoolState :=
  ops.foldl (PoolState.step cfg) s

/-- The invariant of the pool state under `cfg`. -/
structure PoolInv (cfg : Config) (s : PoolState) : Prop where
  leased_nodup : s.leased.Nodup
  idle_nodup : s.idle.Nodup
  disjoint : ∀ w ∈ s.idle, w ∉ s.leased
  fresh : ∀ w, w ∈ s.idle ∨ w ∈ s.leased → w < s.nextId
  total : s.idle.length + s.leased.length ≤ cfg.MaxTotal

end PdfiumWebserver

namespace PdfiumWebserver

/-! ## Theorems about the handlers -/

/-- The wrap-around leaves the decrement of a positive Go `int` unchanged. -/
theorem wrapInt_pred {p : Int} (hp : isGoInt p) (h : 0 < p) : wrapInt (p - 1) = p - 1 := by
  unfold isGoInt at hp
  unfold wrapInt
  omega

/-- The zero-based index computed from a bound page number. -/
theorem pageIndex_eq {p : Int} (hp : isGoInt p) :
    wrapInt ((if p ≤ 0 then 1 else p) - 1) = if p > 0 then p - 1 else 0 := by
  by_cases h : p ≤ 0
  · have h2 : ¬ p > 0 := by omega
    simp only [h, h2, if_true, if_false]
    decide
  · have h2 : p > 0 := by omega
    simp only [h, h2, if_true, if_false]
    exact wrapInt_pred hp h2

/-- A struct that passes `ShouldBind` is the mapped one and has no zero field. -/
theorem ShouldBind_ok {req : Request} {b : BindFile} (h : ShouldBind req = .ok b) :
    req.mapped = .ok b ∧ b.DPI ≠ 0 ∧ b.Page ≠ 0 ∧ b.File ≠ none := by
  unfold ShouldBind at h
  cases hm : req.mapped with
  | error e => simp [hm] at h
  | ok b0 =>
    simp only [hm] at h
    cases he : requiredErrors b0 with
    | cons x xs => simp [he] at h
    | nil =>
      simp only [he] at h
      have hb : b0 = b := by injection h
      subst hb
      unfold requiredErrors at he
      refine ⟨rfl, ?_, ?_, ?_⟩
      · intro h0; simp [h0] at he
      · intro h0; simp [h0] at he
      · intro h0; simp [h0] at he

/-- The paths through the handler, one disjunct per `return` of main.go
106-164 and per runtime fault. -/
theorem renderHandler_cases (env : Env) (req : Request) :
    (∃ e, ShouldBind req = .error e ∧
      renderHandler env req = ⟨[], .text 400 ("err: " ++ e)⟩) ∨
    (∃ b, ShouldBind req = .ok b ∧ b.File = none ∧
      renderHandler env req = ⟨[.nilDereference], .abort 500⟩) ∨
    (∃ b f e, ShouldBind req = .ok b ∧ b.File = some f ∧ f.Open = .error e ∧
      renderHandler env req = ⟨[.fileOpen], .text 400 ("upload file err: " ++ e)⟩) ∨
    (∃ b f src, ShouldBind req = .ok b ∧ b.File = some f ∧ f.Open = .ok src ∧
      env.pool = none ∧
      renderHandler env req =
        ⟨[.fileOpen, .getInstance, .nilDereference, .srcClose], .abort 500⟩) ∨
    (∃ b f src p e, ShouldBind req = .ok b ∧ b.File = some f ∧ f.Open = .ok src ∧
      env.pool = some p ∧ p.GetInstance = .error e ∧
      renderHandler env req =
        ⟨[.fileOpen, .getInstance, .srcClose], .text 400 ("pdfium err: " ++ e)⟩) ∨
    (∃ b f src p inst e, ShouldBind req = .ok b ∧ b.File = some f ∧ f.Open = .ok src ∧
      env.pool = some p ∧ p.GetInstance = .ok inst ∧ inst.OpenDocument src = .error e ∧
      renderHandler env req =
        ⟨[.fileOpen, .getInstance, .openDocument, .instanceClose, .srcClose],
          .text 400 ("pdfium err: " ++ e)⟩) ∨
    (∃ b f src p inst doc e, ShouldBind req = .ok b ∧ b.File = some f ∧ f.Open = .ok src ∧
      env.pool = some p ∧ p.GetInstance = .ok inst ∧ inst.OpenDocument src = .ok doc ∧
      inst.RenderToFile doc (wrapInt ((if b.Page ≤ 0 then 1 else b.Page) - 1)) b.DPI
        = .error e ∧
      renderHandler env req =
        ⟨[.fileOpen, .getInstance, .openDocument,
          .renderToFile (wrapInt ((if b.Page ≤ 0 then 1 else b.Page) - 1)) b.DPI,
          .instanceClose, .srcClose], .text 400 ("pdfium err: " ++ e)⟩) ∨
    (∃ b f src p inst doc image, ShouldBind req = .ok b ∧ b.File = some f ∧
      f.Open = .ok src ∧ env.pool = some p ∧ p.GetInstance = .ok inst ∧
      inst.OpenDocument src = .ok doc ∧
      inst.RenderToFile doc (wrapInt ((if b.Page ≤ 0 then 1 else b.Page) - 1)) b.DPI
        = .ok image ∧
      renderHandler env req =
        ⟨[.fileOpen, .getInstance, .openDocument,
          .renderToFile (wrapInt ((if b.Page ≤ 0 then 1 else b.Page) - 1)) b.DPI,
          .instanceClose, .srcClose], .data 200 "image/jpeg" image⟩) := by
  cases hb : ShouldBind req with
  | error e => exact Or.inl ⟨e, rfl, by simp [renderHandler, hb]⟩
  | ok b =>
    right
    cases hf : b.File with
    | none => exact Or.inl ⟨b, rfl, hf, by simp [renderHandler, hb, hf]⟩
    | some f =>
      right
      cases ho : f.Open with
      | error e => exact Or.inl ⟨b, f, e, rfl, hf, ho, by simp [renderHandler, hb, hf, ho]⟩
      | ok src =>
        right
        cases hp : env.pool with
        | none =>
          exact Or.inl ⟨b, f, src, rfl, hf, ho, rfl, by simp [renderHandler, hb, hf, ho, hp]⟩
        | some p =>
          right
          cases hg : p.GetInstance with
          | error e =>
            exact Or.inl ⟨b, f, src, p, e, rfl, hf, ho, rfl, hg,
              by simp [renderHandler, hb, hf, ho, hp, hg]⟩
          | ok inst =>
            right
            cases hd : inst.OpenDocument src with
            | error e =>
              exact Or.inl ⟨b, f, src, p, inst, e, rfl, hf, ho, rfl, hg, hd,
                by simp [renderHandler, hb, hf, ho, hp, hg, hd]⟩
            | ok doc =>
              right
              cases hr : inst.RenderToFile doc
                  (wrapInt ((if b.Page ≤ 0 then 1 else b.Page) - 1)) b.DPI with
              | error e =>
                exact Or.inl ⟨b, f, src, p, inst, doc, e, rfl, hf, ho, rfl, hg, hd, hr,
                  by simp only [renderHandler, hb, hf, ho, hp, hg, hd, hr]⟩
              | ok image =>
                exact Or.inr ⟨b, f, src, p, inst, doc, image, rfl, hf, ho, rfl, hg, hd, hr,
                  by simp only [renderHandler, hb, hf, ho, hp, hg, hd, hr]⟩

/-- Every render event of the handler carries the index and the DPI computed
from the bound struct. -/
theorem render_event_inv {env : Env} {req : Request} {index dpi : Int}
    (h : Event.renderToFile index dpi ∈ (renderHandler env req).trace) :
    ∃ b, ShouldBind req = .ok b ∧
      index = wrapInt ((if b.Page ≤ 0 then 1 else b.Page) - 1) ∧ dpi = b.DPI := by
  rcases renderHandler_cases env req with
    ⟨e, _, hr⟩ | ⟨b, _, _, hr⟩ | ⟨b, f, e, _, _, _, hr⟩ | ⟨b, f, src, _, _, _, _, hr⟩ |
    ⟨b, f, src, p, e, _, _, _, _, _, hr⟩ | ⟨b, f, src, p, inst, e, _, _, _, _, _, _, hr⟩ |
    ⟨b, f, src, p, inst, doc, e, hb, _, _, _, _, _, _, hr⟩ |
    ⟨b, f, src, p, inst, doc, image, hb, _, _, _, _, _, _, hr⟩ <;>
    rw [hr] at h <;> simp at h
  · exact ⟨b, hb, h.1, h.2⟩
  · exact ⟨b, hb, h.1, h.2⟩

/-- Two outcomes of one binding are the same struct. -/
theorem bind_unique {req : Request} {b b2 : BindFile}
    (h : ShouldBind req = .ok b) (h2 : ShouldBind req = .ok b2) : b2 = b := by
  rw [h] at h2
  injection h2 with h3
  exact h3.symm

/-- C1: for every bound page number p that is a Go int, a render call issued
by the /render handler carries the zero-based index p - 1 when p > 0 and 0
when p <= 0; page 1 gives index 0, every non-positive page gives index 0, and
the index is never negative. -/
theorem render_page_index (env : Env) (req : Request) (b : BindFile) (index dpi : Int)
    (hb : ShouldBind req = .ok b) (hp : isGoInt b.Page)
    (h : Event.renderToFile index dpi ∈ (renderHandler env req).trace) :
    index = (if b.Page > 0 then b.Page - 1 else 0) ∧
      (b.Page = 1 → index = 0) ∧ (b.Page ≤ 0 → index = 0) ∧ 0 ≤ index := by
  obtain ⟨b2, hb2, hi, _⟩ := render_event_inv h
  have hbb := bind_unique hb hb2
  subst hbb
  have hidx : index = if b2.Page > 0 then b2.Page - 1 else 0 := by
    rw [hi]; exact pageIndex_eq hp
  refine ⟨hidx, ?_, ?_, ?_⟩
  · intro h1
    rw [hidx, h1]; decide
  · intro h0
    have : ¬ b2.Page > 0 := by omega
    rw [hidx, if_neg this]
  · rw [hidx]
    split <;> omega

/-- Witness of C1: page 3 of a valid document on a ready pool is rendered at
index 2. -/
theorem render_page_index_witness :
    Event.renderToFile 2 150 ∈ (renderHandler readyEnv (requestFor 3 150)).trace ∧
      (2 : Int) = 3 - 1 ∧ (0 : Int) ≤ 2 :=
  have h := render_page_index readyEnv (requestFor 3 150) ⟨150, 3, some validFile⟩ 2 150 rfl
    (by decide) (by decide)
  ⟨by decide, by decide, h.2.2.2⟩

/-- C2, the code at page=0: a request with page=0, dpi=150 and a valid
document on a ready pool is rejected by the binding of main.go 109, since
the required tag on Page refuses the zero value: status 400, no worker
call. -/
theorem page_zero_rejected_by_binding :
    ShouldBind (requestFor 0 150) = .error (fieldError "Page") ∧
    renderHandler readyEnv (requestFor 0 150) =
      ⟨[], .text 400 ("err: Key: \x27BindFile.Page\x27 Error:Field validation for " ++
        "\x27Page\x27 failed on the \x27required\x27 tag")⟩ := by
  constructor
  · rfl
  · decide

/-- On the paths where an instance is acquired the trace is one of the three
that end in the deferred `Close`; on all other paths no release call occurs. -/
theorem release_calls (env : Env) (req : Request) :
    (Acquired env req ∧
      (renderHandler env req).trace.filter
        (fun e => decide (e = Event.instanceClose ∨ e = Event.instanceKill))
        = [Event.instanceClose]) ∨
    (¬ Acquired env req ∧
      (renderHandler env req).trace.filter
        (fun e => decide (e = Event.instanceClose ∨ e = Event.instanceKill)) = []) := by
  rcases renderHandler_cases env req with
    ⟨e, hb, hr⟩ | ⟨b, hb, hf, hr⟩ | ⟨b, f, e, hb, hf, ho, hr⟩ |
    ⟨b, f, src, hb, hf, ho, hp, hr⟩ |
    ⟨b, f, src, p, e, hb, hf, ho, hp, hg, hr⟩ |
    ⟨b, f, src, p, inst, e, hb, hf, ho, hp, hg, hd, hr⟩ |
    ⟨b, f, src, p, inst, doc, e, hb, hf, ho, hp, hg, hd, hrr, hr⟩ |
    ⟨b, f, src, p, inst, doc, image, hb, hf, ho, hp, hg, hd, hrr, hr⟩
  · right
    refine ⟨?_, by rw [hr]; rfl⟩
    rintro ⟨b2, src2, inst2, p2, ⟨f2, h1, h2, h3⟩, h4, h5⟩
    rw [hb] at h1; cases h1
  · right
    refine ⟨?_, by rw [hr]; rfl⟩
    rintro ⟨b2, src2, inst2, p2, ⟨f2, h1, h2, h3⟩, h4, h5⟩
    rw [hb] at h1; cases h1
    rw [hf] at h2; cases h2
  · right
    refine ⟨?_, by rw [hr]; rfl⟩
    rintro ⟨b2, src2, inst2, p2, ⟨f2, h1, h2, h3⟩, h4, h5⟩
    rw [hb] at h1; cases h1
    rw [hf] at h2; cases h2
    rw [ho] at h3; cases h3
  · right
    refine ⟨?_, by rw [hr]; rfl⟩
    rintro ⟨b2, src2, inst2, p2, ⟨f2, h1, h2, h3⟩, h4, h5⟩
    rw [hp] at h4; cases h4
  · right
    refine ⟨?_, by rw [hr]; rfl⟩
    rintro ⟨b2, src2, inst2, p2, ⟨f2, h1, h2, h3⟩, h4, h5⟩
    rw [hp] at h4; cases h4
    rw [hg] at h5; cases h5
  · left
    exact ⟨⟨b, src, inst, p, ⟨f, hb, hf, ho⟩, hp, hg⟩, by rw [hr]; rfl⟩
  · left
    exact ⟨⟨b, src, inst, p, ⟨f, hb, hf, ho⟩, hp, hg⟩, by rw [hr]; rfl⟩
  · left
    exact ⟨⟨b, src, inst, p, ⟨f, hb, hf, ho⟩, hp, hg⟩, by rw [hr]; rfl⟩

/-- Counting one event in a trace through the filter of the release calls. -/
theorem count_of_release_filter {t : List Event} {l : List Event}
    (h : t.filter (fun e => decide (e = Event.instanceClose ∨ e = Event.instanceKill)) = l) :
    t.count Event.instanceClose = l.count Event.instanceClose ∧
    t.count Event.instanceKill = l.count Event.instanceKill := by
  subst h
  induction t with
  | nil => simp
  | cons a t ih =>
    cases a <;> simp [List.filter, List.count_cons]

/-- C3: for every /render request and every outcome of the collaborators, if
an instance was acquired the handler calls Close on it exactly once (whether
the open failed, the render failed or the render succeeded), and if binding,
the upload open or the acquisition failed no release call is made. -/
theorem instance_released_once (env : Env) (req : Request) :
    (Acquired env req → (renderHandler env req).trace.count Event.instanceClose = 1) ∧
    (¬ Acquired env req → (renderHandler env req).trace.count Event.instanceClose = 0) ∧
    (∀ e, (OpenDocumentFails env req e ∨ RenderFails env req e) →
      (renderHandler env req).trace.count Event.instanceClose = 1) ∧
    (∀ image, RenderSucceeds env req image →
      (renderHandler env req).trace.count Event.instanceClose = 1) := by
  have key : Acquired env req →
      (renderHandler env req).trace.count Event.instanceClose = 1 := by
    intro ha
    rcases release_calls env req with ⟨_, hf⟩ | ⟨hn, _⟩
    · rw [(count_of_release_filter hf).1]; rfl
    · exact absurd ha hn
  refine ⟨key, ?_, ?_, ?_⟩
  · intro hna
    rcases release_calls env req with ⟨ha, _⟩ | ⟨_, hf⟩
    · exact absurd ha hna
    · rw [(count_of_release_filter hf).1]; rfl
  · rintro e (⟨b, src, inst, ha, _⟩ | ⟨b, src, inst, doc, ha, _⟩)
    · exact key ⟨b, src, inst, ha⟩
    · exact key ⟨b, src, inst, ha⟩
  · rintro image ⟨b, src, inst, doc, ha, _⟩
    exact key ⟨b, src, inst, ha⟩

/-- Witness of C3: a failed document open on an acquired instance is followed
by exactly one Close. -/
theorem instance_released_once_witness :
    OpenDocumentFails corruptDocEnv (requestFor 1 150) "failed to open document" ∧
    (renderHandler corruptDocEnv (requestFor 1 150)).trace.count Event.instanceClose = 1 :=
  have hf : OpenDocumentFails corruptDocEnv (requestFor 1 150) "failed to open document" :=
    ⟨⟨150, 1, some validFile⟩, pdfBytes, rejectingInstance,
      ⟨⟨.ok rejectingInstance⟩, ⟨validFile, rfl, rfl, rfl⟩, rfl, rfl⟩, rfl⟩
  ⟨hf, (instance_released_once corruptDocEnv (requestFor 1 150)).2.2.1 _ (Or.inl hf)⟩

/-- C4 as stated fails: with binding and upload open successful and
GetInstance failing on an exhausted pool, the handler answers 400, which is
not a server-error status. -/
theorem acquisition_failure_not_server_error :
    AcquisitionFails exhaustedEnv (requestFor 1 150) "Timeout waiting for idle object" ∧
    (renderHandler exhaustedEnv (requestFor 1 150)).response =
      .text 400 "pdfium err: Timeout waiting for idle object" ∧
    ¬ isServerError (renderHandler exhaustedEnv (requestFor 1 150)).response.status := by
  refine ⟨⟨⟨150, 1, some validFile⟩, pdfBytes, ⟨.error "Timeout waiting for idle object"⟩,
    ⟨validFile, rfl, rfl, rfl⟩, rfl, rfl⟩, by decide, ?_⟩
  have : (renderHandler exhaustedEnv (requestFor 1 150)).response.status = 400 := by decide
  rw [this]
  unfold isServerError
  omega

/-- C4 amended: for every /render request whose binding and upload open
succeed and whose GetInstance fails with message e, the response is the text
"pdfium err: " followed by e with status 400, a client-error status and not
a server-error one, and no worker operation is issued. -/
theorem acquisition_failure_client_error (env : Env) (req : Request) (e : String)
    (h : AcquisitionFails env req e) :
    (renderHandler env req).response = .text 400 ("pdfium err: " ++ e) ∧
    isClientError (renderHandler env req).response.status ∧
    ¬ isServerError (renderHandler env req).response.status ∧
    (renderHandler env req).trace = [.fileOpen, .getInstance, .srcClose] := by
  obtain ⟨b, src, p, ⟨f, hb, hf, ho⟩, hp, hg⟩ := h
  have hr : renderHandler env req =
      ⟨[.fileOpen, .getInstance, .srcClose], .text 400 ("pdfium err: " ++ e)⟩ := by
    simp [renderHandler, hb, hf, ho, hp, hg]
  rw [hr]
  refine ⟨rfl, ?_, ?_, rfl⟩
  · show 400 ≤ 400 ∧ 400 < 500
    omega
  · show ¬ (500 ≤ 400 ∧ 400 < 600)
    omega

/-- Witness of C4 amended: the exhausted pool. -/
theorem acquisition_failure_client_error_witness :
    AcquisitionFails exhaustedEnv (requestFor 1 150) "Timeout waiting for idle object" ∧
    (renderHandler exhaustedEnv (requestFor 1 150)).response =
      .text 400 ("pdfium err: " ++ "Timeout waiting for idle object") :=
  have hf : AcquisitionFails exhaustedEnv (requestFor 1 150)
      "Timeout waiting for idle object" :=
    ⟨⟨150, 1, some validFile⟩, pdfBytes, ⟨.error "Timeout waiting for idle object"⟩,
      ⟨validFile, rfl, rfl, rfl⟩, rfl, rfl⟩
  ⟨hf, (acquisition_failure_client_error exhaustedEnv (requestFor 1 150) _ hf).1⟩

/-- C5: for every /render request in which binding fails, the upload cannot
be opened, or the worker fails to open the document, with error message e,
the response is a text with status 400 (a client-error status) whose body
ends in e, so no image bytes are sent, and no render call is issued. -/
theorem bad_input_client_error (env : Env) (req : Request) (e : String)
    (h : BindFails req e ∨ UploadFails req e ∨ OpenDocumentFails env req e) :
    (∃ pre, (renderHandler env req).response = .text 400 (pre ++ e)) ∧
    isClientError (renderHandler env req).response.status ∧
    (∀ code ct body, (renderHandler env req).response ≠ .data code ct body) ∧
    (∀ index dpi, Event.renderToFile index dpi ∉ (renderHandler env req).trace) := by
  have hrw : ∃ pre t, renderHandler env req = ⟨t, .text 400 (pre ++ e)⟩ ∧
      ∀ index dpi, Event.renderToFile index dpi ∉ t := by
    rcases h with hb | ⟨b, f, hb, hf, ho⟩ | ⟨b, src, inst, ⟨p, ⟨f, hb, hf, ho⟩, hp, hg⟩, hd⟩
    · exact ⟨"err: ", [], by simp [renderHandler, show ShouldBind req = .error e from hb], by simp⟩
    · exact ⟨"upload file err: ", [.fileOpen], by simp [renderHandler, hb, hf, ho], by simp⟩
    · exact ⟨"pdfium err: ", [.fileOpen, .getInstance, .openDocument, .instanceClose,
        .srcClose], by simp [renderHandler, hb, hf, ho, hp, hg, hd], by simp⟩
  obtain ⟨pre, t, hr, hn⟩ := hrw
  rw [hr]
  refine ⟨⟨pre, rfl⟩, ?_, ?_, hn⟩
  · show 400 ≤ 400 ∧ 400 < 500
    omega
  · intro code ct body hc
    cases hc

/-- Witness of C5: a document the worker rejects. -/
theorem bad_input_client_error_witness :
    OpenDocumentFails corruptDocEnv (requestFor 1 150) "failed to open document" ∧
    (∀ index dpi, Event.renderToFile index dpi ∉
      (renderHandler corruptDocEnv (requestFor 1 150)).trace) :=
  have hf : OpenDocumentFails corruptDocEnv (requestFor 1 150) "failed to open document" :=
    ⟨⟨150, 1, some validFile⟩, pdfBytes, rejectingInstance,
      ⟨⟨.ok rejectingInstance⟩, ⟨validFile, rfl, rfl, rfl⟩, rfl, rfl⟩, rfl⟩
  ⟨hf, (bad_input_client_error corruptDocEnv (requestFor 1 150) _
    (Or.inr (Or.inr hf))).2.2.2⟩

/-- C6 as stated fails: when the worker fails to open the document on an
acquired instance, the handler ends the lease with the plain Close, the same
call as after a successful render, and never with the destroying Kill. -/
theorem failed_open_released_by_close :
    OpenDocumentFails corruptDocEnv (requestFor 1 150) "failed to open document" ∧
    (renderHandler corruptDocEnv (requestFor 1 150)).trace =
      [.fileOpen, .getInstance, .openDocument, .instanceClose, .srcClose] ∧
    Event.instanceKill ∉ (renderHandler corruptDocEnv (requestFor 1 150)).trace ∧
    (renderHandler readyEnv (requestFor 1 150)).trace =
      [.fileOpen, .getInstance, .openDocument, .renderToFile 0 150, .instanceClose,
        .srcClose] := by
  refine ⟨⟨⟨150, 1, some validFile⟩, pdfBytes, rejectingInstance,
      ⟨⟨.ok rejectingInstance⟩, ⟨validFile, rfl, rfl, rfl⟩, rfl, rfl⟩, rfl⟩, ?_, ?_, ?_⟩ <;>
    decide

/-- C6 amended: for every /render request the handler never calls Kill, and
whenever an instance was acquired its only release call is one Close, the
same whether the open failed, the render failed or the render succeeded. -/
theorem release_is_always_close (env : Env) (req : Request) :
    Event.instanceKill ∉ (renderHandler env req).trace ∧
    (Acquired env req →
      (renderHandler env req).trace.filter
        (fun e => decide (e = Event.instanceClose ∨ e = Event.instanceKill))
        = [Event.instanceClose]) ∧
    (∀ e, (OpenDocumentFails env req e ∨ RenderFails env req e) →
      (renderHandler env req).trace.filter
        (fun e => decide (e = Event.instanceClose ∨ e = Event.instanceKill))
        = [Event.instanceClose]) := by
  have key : Acquired env req →
      (renderHandler env req).trace.filter
        (fun e => decide (e = Event.instanceClose ∨ e = Event.instanceKill))
        = [Event.instanceClose] := by
    intro ha
    rcases release_calls env req with ⟨_, hf⟩ | ⟨hn, _⟩
    · exact hf
    · exact absurd ha hn
  refine ⟨?_, key, ?_⟩
  · have hc : (renderHandler env req).trace.count Event.instanceKill = 0 := by
      rcases release_calls env req with ⟨_, hf⟩ | ⟨_, hf⟩ <;>
        rw [(count_of_release_filter hf).2] <;> rfl
    exact List.count_eq_zero.mp hc
  · rintro e (⟨b, src, inst, ha, _⟩ | ⟨b, src, inst, doc, ha, _⟩)
    · exact key ⟨b, src, inst, ha⟩
    · exact key ⟨b, src, inst, ha⟩

/-- Witness of C6 amended: a failed render on an acquired instance. -/
theorem release_is_always_close_witness :
    RenderFails failingRenderEnv (requestFor 1 150) "render failed" ∧
    (renderHandler failingRenderEnv (requestFor 1 150)).trace.filter
        (fun e => decide (e = Event.instanceClose ∨ e = Event.instanceKill))
        = [Event.instanceClose] :=
  have hf : RenderFails failingRenderEnv (requestFor 1 150) "render failed" :=
    ⟨⟨150, 1, some validFile⟩, pdfBytes, failingRenderInstance, ⟨1⟩,
      ⟨⟨.ok failingRenderInstance⟩, ⟨validFile, rfl, rfl, rfl⟩, rfl, rfl⟩, rfl, rfl⟩
  ⟨hf, (release_is_always_close failingRenderEnv (requestFor 1 150)).2.2 _ (Or.inr hf)⟩

/-- C7 as stated fails: a request with dpi = -72 passes binding (the required
tag only refuses zero) and the render call is issued with DPI -72, which is
not positive. -/
theorem negative_dpi_reaches_renderer :
    ShouldBind (requestFor 1 (-72)) = .ok ⟨-72, 1, some validFile⟩ ∧
    Event.renderToFile 0 (-72) ∈ (renderHandler readyEnv (requestFor 1 (-72))).trace ∧
    ¬ ((0 : Int) < -72) := by
  refine ⟨rfl, ?_, ?_⟩ <;> decide

/-- C7 amended: for every /render request, the DPI handed to the renderer is
the bound DPI value unchanged and is non-zero; a request whose DPI is zero
never reaches the renderer. -/
theorem render_dpi_nonzero (env : Env) (req : Request) :
    (∀ index dpi, Event.renderToFile index dpi ∈ (renderHandler env req).trace →
      dpi ≠ 0 ∧ ∃ b, req.mapped = .ok b ∧ ShouldBind req = .ok b ∧ dpi = b.DPI) ∧
    (∀ b, req.mapped = .ok b → b.DPI = 0 →
      ∀ index dpi, Event.renderToFile index dpi ∉ (renderHandler env req).trace) := by
  have key : ∀ index dpi, Event.renderToFile index dpi ∈ (renderHandler env req).trace →
      dpi ≠ 0 ∧ ∃ b, req.mapped = .ok b ∧ ShouldBind req = .ok b ∧ dpi = b.DPI := by
    intro index dpi h
    obtain ⟨b, hb, _, hd⟩ := render_event_inv h
    obtain ⟨hm, hz, _, _⟩ := ShouldBind_ok hb
    exact ⟨hd ▸ hz, b, hm, hb, hd⟩
  refine ⟨key, ?_⟩
  intro b hm h0 index dpi h
  obtain ⟨hz, b2, hm2, _, hd⟩ := key index dpi h
  rw [hm] at hm2
  injection hm2 with h3
  subst h3
  exact hz (hd.trans h0)

/-- Witness of C7 amended: the render call of a request at 150 DPI. -/
theorem render_dpi_nonzero_witness :
    Event.renderToFile 0 150 ∈ (renderHandler readyEnv (requestFor 1 150)).trace ∧
    (150 : Int) ≠ 0 :=
  ⟨by decide, ((render_dpi_nonzero readyEnv (requestFor 1 150)).1 0 150 (by decide)).1⟩

/-- C8: for every pool state the /readyz probe answers status 200 with
pdfium_ready = true if and only if the pool handle is non-nil, and status 500
with pdfium_ready = false otherwise. -/
theorem readyz_reflects_pool (env : Env) :
    (readyzHandler env = ⟨200, [("pdfium_ready", .bool true)]⟩ ↔ env.pool ≠ none) ∧
    (readyzHandler env = ⟨500, [("pdfium_ready", .bool false)]⟩ ↔ env.pool = none) ∧
    ((readyzHandler env).status = 200 ↔ env.pool ≠ none) ∧
    ((readyzHandler env).status = 500 ↔ env.pool = none) := by
  cases hp : env.pool with
  | none => simp [readyzHandler, hp]
  | some p => simp [readyzHandler, hp]

/-- C10, the code on a nil pool: while the pool variable is still nil the
readiness probe reports not ready, and a /render request that passes binding
and upload open calls GetInstance on the nil pool; the runtime fault is
answered by the recovery middleware with status 500. -/
theorem nil_pool_dereferenced :
    readyzHandler startingEnv = ⟨500, [("pdfium_ready", .bool false)]⟩ ∧
    UploadOpens (requestFor 1 150) ⟨150, 1, some validFile⟩ pdfBytes ∧
    renderHandler startingEnv (requestFor 1 150) =
      ⟨[.fileOpen, .getInstance, .nilDereference, .srcClose], .abort 500⟩ := by
  refine ⟨by decide, ⟨validFile, rfl, rfl, rfl⟩, by decide⟩

/-! ## Theorems about the pool -/

/-- The empty pool satisfies the invariant. -/
theorem poolInv_empty (cfg : Config) : PoolInv cfg emptyPool where
  leased_nodup := List.nodup_nil
  idle_nodup := List.nodup_nil
  disjoint := by intro w hw; simp [emptyPool] at hw
  fresh := by intro w hw; simp [emptyPool] at hw
  total := by simp [emptyPool]

/-- Acquire keeps the invariant. -/
theorem poolInv_acquire {cfg : Config} {s : PoolState} (h : PoolInv cfg s) :
    PoolInv cfg (s.Acquire cfg).1 := by
  obtain ⟨hl, hi, hd, hf, ht⟩ := h
  unfold PoolState.Acquire
  cases hidle : s.idle with
  | cons w rest =>
    rw [hidle] at hi hd ht
    have hw : w ∉ s.leased := hd w (List.mem_cons_self w rest)
    have hi2 := List.nodup_cons.mp hi
    refine ⟨?_, ?_, ?_, ?_, ?_⟩
    · exact List.nodup_cons.mpr ⟨hw, hl⟩
    · exact hi2.2
    · intro x hx hxl
      rcases List.mem_cons.mp hxl with hxw | hxl2
      · exact hi2.1 (hxw ▸ hx)
      · exact hd x (List.mem_cons_of_mem w hx) hxl2
    · intro x hx
      apply hf x
      rcases hx with hx | hx
      · exact Or.inl (hidle ▸ List.mem_cons_of_mem w hx)
      · rcases List.mem_cons.mp hx with hxw | hxl2
        · exact Or.inl (hidle ▸ hxw ▸ List.mem_cons_self w rest)
        · exact Or.inr hxl2
    · simp only [List.length_cons] at ht ⊢
      omega
  | nil =>
    rw [hidle] at ht
    simp only
    split
    · rename_i hlt
      refine ⟨?_, ?_, ?_, ?_, ?_⟩
      · refine List.nodup_cons.mpr ⟨?_, hl⟩
        intro hmem
        exact Nat.lt_irrefl _ (hf _ (Or.inr hmem))
      · simp only [hidle]; exact List.nodup_nil
      · intro x hx
        simp only [hidle] at hx
        cases hx
      · intro x hx
        rcases hx with hx | hx
        · simp only [hidle] at hx
          cases hx
        · rcases List.mem_cons.mp hx with hxw | hxl2
          · simp only [hxw]; omega
          · have := hf x (Or.inr hxl2)
            simp only; omega
      · simp only [hidle, List.length_cons, List.length_nil]
        omega
    · exact ⟨hl, hidle ▸ List.nodup_nil, by simp [hidle], hf, by simpa [hidle] using ht⟩

/-- Release keeps the invariant. -/
theorem poolInv_release {cfg : Config} {s : PoolState} (h : PoolInv cfg s) (w : Nat)
    (healthy : Bool) : PoolInv cfg (s.Release w healthy) := by
  obtain ⟨hl, hi, hd, hf, ht⟩ := h
  unfold PoolState.Release
  by_cases hw : w ∈ s.leased
  · have hlen : (s.leased.erase w).length + 1 = s.leased.length := by
      rw [List.length_erase_of_mem hw]
      have : 0 < s.leased.length := List.length_pos_of_mem hw
      omega
    have hwi : w ∉ s.idle := fun hwi => hd w hwi hw
    rw [if_pos hw]
    cases healthy with
    | true =>
      simp only [if_true]
      refine ⟨hl.erase w, ?_, ?_, ?_, ?_⟩
      · refine List.Nodup.append hi (List.nodup_singleton w) ?_
        intro x hx hx2
        rw [List.mem_singleton] at hx2
        exact hwi (hx2 ▸ hx)
      · intro x hx hxe
        rcases List.mem_append.mp hx with hx | hx
        · exact hd x hx (List.mem_of_mem_erase hxe)
        · rw [List.mem_singleton] at hx
          rw [hx] at hxe
          exact (hl.mem_erase_iff.mp hxe).1 rfl
      · intro x hx
        rcases hx with hx | hx
        · rcases List.mem_append.mp hx with hx | hx
          · exact hf x (Or.inl hx)
          · rw [List.mem_singleton] at hx
            exact hf x (Or.inr (hx ▸ hw))
        · exact hf x (Or.inr (List.mem_of_mem_erase hx))
      · simp only [List.length_append, List.length_singleton]
        omega
    | false =>
      simp only [Bool.false_eq_true, if_false]
      refine ⟨hl.erase w, hi, ?_, ?_, ?_⟩
      · intro x hx hxe
        exact hd x hx (List.mem_of_mem_erase hxe)
      · intro x hx
        rcases hx with hx | hx
        · exact hf x (Or.inl hx)
        · exact hf x (Or.inr (List.mem_of_mem_erase hx))
      · show s.idle.length + (s.leased.erase w).length ≤ cfg.MaxTotal
        omega
  · rw [if_neg hw]
    exact ⟨hl, hi, hd, hf, ht⟩

/-- A maintenance cycle keeps the invariant. -/
theorem poolInv_maintain {cfg : Config} {s : PoolState} (h : PoolInv cfg s) :
    PoolInv cfg (s.Maintain cfg) := by
  obtain ⟨hl, hi, hd, hf, ht⟩ := h
  unfold PoolState.Maintain
  simp only
  generalize hk : min (cfg.MinIdle - s.idle.length)
    (cfg.MaxTotal - (s.idle.length + s.leased.length)) = k
  have hk2 : k ≤ cfg.MaxTotal - (s.idle.length + s.leased.length) := by
    rw [← hk]; exact Nat.min_le_right _ _
  have hnew : ∀ x ∈ (List.range k).map (fun i => s.nextId + i),
      s.nextId ≤ x ∧ x < s.nextId + k := by
    intro x hx
    obtain ⟨i, hi2, rfl⟩ := List.mem_map.mp hx
    have := List.mem_range.mp hi2
    omega
  have hall : (s.idle ++ (List.range k).map (fun i => s.nextId + i)).Nodup := by
    refine List.Nodup.append hi ?_ ?_
    · refine (List.nodup_range k).map ?_
      intro a b hab
      simp only at hab
      omega
    · intro x hx hx2
      have h1 := hf x (Or.inl hx)
      have h2 := (hnew x hx2).1
      omega
  refine ⟨hl, ?_, ?_, ?_, ?_⟩
  · exact hall.sublist (List.drop_sublist _ _)
  · intro x hx hxl
    rcases List.mem_append.mp (List.mem_of_mem_drop hx) with hx | hx
    · exact hd x hx hxl
    · have h1 := hf x (Or.inr hxl)
      have h2 := (hnew x hx).1
      omega
  · intro x hx
    rcases hx with hx | hx
    · rcases List.mem_append.mp (List.mem_of_mem_drop hx) with hx | hx
      · have := hf x (Or.inl hx)
        simp only; omega
      · exact (hnew x hx).2
    · have := hf x (Or.inr hx)
      simp only; omega
  · simp only [List.length_drop, List.length_append, List.length_map, List.length_range]
    omega

/-- Every pool operation keeps the invariant. -/
theorem poolInv_step {cfg : Config} {s : PoolState} (h : PoolInv cfg s) (op : PoolOp) :
    PoolInv cfg (s.step cfg op) := by
  cases op with
  | acquire => exact poolInv_acquire h
  | release w healthy => exact poolInv_release h w healthy
  | expire w => exact poolInv_release h w false
  | maintain => exact poolInv_maintain h

/-- Every sequence of pool operations keeps the invariant. -/
theorem poolInv_run {cfg : Config} (ops : List PoolOp) :
    ∀ {s : PoolState}, PoolInv cfg s → PoolInv cfg (s.run cfg ops) := by
  induction ops with
  | nil => intro s h; exact h
  | cons op ops ih =>
    intro s h
    exact ih (poolInv_step h op)

/-- The bound is reached: five acquisitions on the start-up pool lease four
distinct workers, the fifth caller gets none. -/
theorem five_acquisitions_lease_four :
    (emptyPool.run startupConfig
      [.maintain, .acquire, .acquire, .acquire, .acquire, .acquire]).leased = [3, 2, 1, 0] ∧
    ((emptyPool.run startupConfig
      [.maintain, .acquire, .acquire, .acquire, .acquire]).Acquire startupConfig).2 = none := by
  decide

/-- C9: for every sequence of pool operations (acquisitions, healthy and
unhealthy releases, lease expiries, maintenance cycles) on the pool
configured at start-up with MinIdle = MaxIdle = MaxTotal = 4, after every
initial part of the sequence at most MaxTotal = 4 workers are leased and no
worker is held by two live leases. -/
theorem leased_within_max_total (ops : List PoolOp) (k : Nat) :
    startupConfig = ⟨4, 4, 4⟩ ∧
    ((emptyPool.run startupConfig (ops.take k)).leased.length ≤ startupConfig.MaxTotal ∧
      (emptyPool.run startupConfig (ops.take k)).leased.length ≤ 4) ∧
    (emptyPool.run startupConfig (ops.take k)).leased.Nodup := by
  have h := poolInv_run (ops.take k) (poolInv_empty startupConfig)
  have ht := h.total
  refine ⟨rfl, ⟨by omega, ?_⟩, h.leased_nodup⟩
  have : startupConfig.MaxTotal = 4 := rfl
  omega

end PdfiumWebserver
